import Mathlib

/-!
Shallow embedding of the family-finance ledger service (src/main.py): the five
relations of the SQL schema, the access gate, and the group, category, record
and search operations, together with proofs of the specification's claims.
Amounts (REAL columns) are modelled as rationals; times are the stored strings.
-/

namespace FamilyFinance

/-- Row of the users table. -/
structure User where
  id : Nat
  username : String
  password : String
deriving DecidableEq

/-- Row of the groups table. -/
structure Group where
  group_id : String
  creator_id : Nat
deriving DecidableEq

/-- Row of the memberships table; the schema declares UNIQUE(user_id, group_id). -/
structure Membership where
  user_id : Nat
  group_id : String
deriving DecidableEq

/-- Row of the categories table; the schema declares UNIQUE(group_id, type, name). -/
structure Category where
  id : Nat
  group_id : String
  type : String
  name : String
deriving DecidableEq

/-- Row of the records table. -/
structure Record where
  id : Nat
  user_id : Nat
  amount : ℚ
  type : String
  category : String
  note : String
  time : String
  group_id : String
deriving DecidableEq

/-- The persistent store: the five relations created by init_db. -/
structure DB where
  users : List User
  groups : List Group
  memberships : List Membership
  categories : List Category
  records : List Record
deriving DecidableEq

/-- Function has_access (main.py lines 97-104): true iff some membership row
joins a user carrying the given username to the given group. -/
def has_access (db : DB) (username group_id : String) : Bool :=
  db.memberships.any (fun m =>
    m.group_id == group_id && db.users.any (fun u => u.id == m.user_id && u.username == username))

/-- Decimal digit character, for digits below 10. -/
def digitChar (d : Nat) : Char := Char.ofNat (48 + d)

/-- Fuel-driven decimal rendering, most significant digit first. -/
def natCharsAux : Nat → Nat → List Char
  | 0, _ => []
  | fuel + 1, n =>
    if n < 10 then [digitChar n]
    else natCharsAux fuel (n / 10) ++ [digitChar (n % 10)]

/-- Decimal digits of a natural number, as Python str renders it. -/
def natChars (n : Nat) : List Char := natCharsAux (n + 1) n

/-- Python format with the 02d specification: the decimal digits padded to
width two with a leading zero. -/
def pad2 (n : Nat) : List Char := if n < 10 then '0' :: natChars n else natChars n

/-- Python conditional rendering of the year component: empty when the
parameter is absent or zero (falsy), its decimal digits otherwise. -/
def optYearChars : Option Nat → List Char
  | none => []
  | some y => if y = 0 then [] else natChars y

/-- Python conditional rendering of the month or day component: two-digit
padded, empty when the parameter is absent or zero (falsy). -/
def optPadChars : Option Nat → List Char
  | none => []
  | some m => if m = 0 then [] else pad2 m

/-- Python strip applied with the dash argument: drop leading and trailing dash
characters. -/
def stripDash (l : List Char) : List Char :=
  ((l.dropWhile (· == '-')).reverse.dropWhile (· == '-')).reverse

/-- The date_part expression of main.py line 193: the three optional components
joined by dashes, then stripped of leading and trailing dashes. -/
def datePart (y m d : Option Nat) : List Char :=
  stripDash (optYearChars y ++ ('-' :: (optPadChars m ++ ('-' :: optPadChars d))))

/-- Boolean test that the first list is an initial segment of the second. -/
def listStarts : List Char → List Char → Bool
  | [], _ => true
  | _ :: _, [] => false
  | a :: as, b :: bs => a == b && listStarts as bs

/-- The SQL filter r.time LIKE date_part || percent (main.py lines 194 and 197):
the generated date_part holds only digits and dashes, never a SQL wildcard, so
the LIKE test is exactly a prefix match of date_part against the time string. -/
def recTimeMatch (y m d : Option Nat) (t : String) : Bool :=
  listStarts (datePart y m d) t.data

/-- Strict lexicographic order on character lists by code point, the order the
storage engine applies to TEXT columns. -/
def lexLt : List Char → List Char → Bool
  | _, [] => false
  | [], _ :: _ => true
  | a :: as, b :: bs =>
    if a.toNat < b.toNat then true
    else if b.toNat < a.toNat then false
    else lexLt as bs

/-- The ORDER BY r.time DESC, r.id DESC clause (main.py line 202) as a total
preorder on record rows: a sorts no later than b when b's time is strictly
smaller, or the times tie and b's id is no larger. -/
def recOrd (a b : Record) : Prop :=
  lexLt b.time.data a.time.data = true ∨ (a.time = b.time ∧ b.id ≤ a.id)

instance : DecidableRel recOrd := fun a b =>
  inferInstanceAs (Decidable (lexLt b.time.data a.time.data = true ∨ (a.time = b.time ∧ b.id ≤ a.id)))

/-- Strict version of the result ordering: a sorts strictly before b when b's
time is lexicographically smaller, or the times tie and b's id is smaller. -/
def recStrict (a b : Record) : Prop :=
  lexLt b.time.data a.time.data = true ∨ (a.time = b.time ∧ b.id < a.id)

instance : DecidableRel recStrict := fun a b =>
  inferInstanceAs (Decidable (lexLt b.time.data a.time.data = true ∨ (a.time = b.time ∧ b.id < a.id)))

/-- The WHERE clause of the search query together with the inner JOIN on users
(main.py lines 197-201): group match, time prefix match, optional exact type
filter, and the requirement that the authoring user row exists. -/
def matchesQuery (db : DB) (g : String) (y m d : Option Nat) (ft : String) (r : Record) : Bool :=
  r.group_id == g && recTimeMatch y m d r.time
    && (ft == "全部" || r.type == ft)
    && db.users.any (fun u => u.id == r.user_id)

/-- The rows the search query returns, in ORDER BY time DESC, id DESC order. -/
def queryRecords (db : DB) (g : String) (y m d : Option Nat) (ft : String) : List Record :=
  List.insertionSort recOrd (db.records.filter (matchesQuery db g y m d ft))

/-- The summary object of a search response. -/
structure Summary where
  income : ℚ
  expense : ℚ
  balance : ℚ
deriving DecidableEq

/-- The aggregation of main.py lines 209-213: income and expense are sums of the
amounts of retrieved rows typed 收入 and 支出, balance their difference. -/
def summarize (l : List Record) : Summary :=
  ⟨((l.filter (fun r => r.type == "收入")).map Record.amount).sum,
   ((l.filter (fun r => r.type == "支出")).map Record.amount).sum,
   ((l.filter (fun r => r.type == "收入")).map Record.amount).sum
     - ((l.filter (fun r => r.type == "支出")).map Record.amount).sum⟩

/-- A search response: the data list and the summary. -/
structure SearchResult where
  data : List Record
  summary : Summary
deriving DecidableEq

/-- The silently-denied and empty response of main.py lines 190 and 207. -/
def emptyResult : SearchResult := ⟨[], ⟨0, 0, 0⟩⟩

/-- Endpoint search_records (main.py lines 186-214). A group_id of none models
an absent query parameter; getD maps it to the empty string, which is likewise
falsy in Python, so both are silently denied, as is a caller without access. -/
def search_records (db : DB) (username : String) (group_id : Option String)
    (y m d : Option Nat) (ft : String) : SearchResult :=
  if group_id.getD "" = "" ∨ has_access db username (group_id.getD "") = false then emptyResult
  else if queryRecords db (group_id.getD "") y m d ft = [] then emptyResult
  else ⟨queryRecords db (group_id.getD "") y m d ft,
        summarize (queryRecords db (group_id.getD "") y m d ft)⟩

/-- Endpoint get_summary (main.py lines 261-263): delegates to search_records
with the day unset and the default filter_type, keeping only the summary. -/
def get_summary (db : DB) (username group_id : String) (year month : Nat) : Summary :=
  (search_records db username (some group_id) (some year) (some month) none "全部").summary

/-- Tagged operation result: ok carries an HTTP 200 payload, err carries the
status and detail of a raised HTTPException. -/
inductive ApiOut (α : Type) where
  | ok : α → ApiOut α
  | err : Nat → String → ApiOut α
deriving DecidableEq

/-- Endpoint create_group (main.py lines 142-156); code is the random invite
code, taken here as a parameter. The inner raise of HTTPException 404 for an
unknown user happens inside the try block whose blanket except Exception
re-raises every failure as a 500 internal error, so the observable status for
an unknown user is 500; a primary-key collision on the code likewise surfaces
as 500 after the transaction rolls back both inserts. -/
def create_group (db : DB) (username code : String) : DB × ApiOut String :=
  match db.users.find? (fun u => u.username == username) with
  | none => (db, .err 500 "服务器内部错误")
  | some u =>
    if db.groups.any (fun g => g.group_id == code) then
      (db, .err 500 "服务器内部错误")
    else
      ({ db with groups := db.groups ++ [⟨code, u.id⟩],
                 memberships := db.memberships ++ [⟨u.id, code⟩] }, .ok code)

/-- Body of join_group once the username row has been fetched. -/
def join_group_resolved (db : DB) (invite_code : String) : Option User → DB × ApiOut String
  | none => (db, .err 404 "用户不存在")
  | some u =>
    if db.groups.any (fun g => g.group_id == invite_code) = false then
      (db, .err 404 "邀请码无效")
    else if db.memberships.any (fun m => m.user_id == u.id && m.group_id == invite_code) then
      (db, .ok "成功")
    else
      ({ db with memberships := db.memberships ++ [⟨u.id, invite_code⟩] }, .ok "成功")

/-- Endpoint join_group (main.py lines 159-174). A duplicate-membership
uniqueness violation from the insert is swallowed by the bare except, so
re-joining succeeds without writing a second row. -/
def join_group (db : DB) (username invite_code : String) : DB × ApiOut String :=
  join_group_resolved db invite_code (db.users.find? (fun u => u.username == username))

/-- Endpoint delete_record (main.py lines 254-258): an unconditional DELETE by
id, always answering the success message. -/
def delete_record (db : DB) (record_id : Nat) : DB × ApiOut String :=
  ({ db with records := db.records.filter (fun r => r.id != record_id) }, .ok "成功")

/-- Outcome of the category INSERT as reported by the storage engine. -/
inductive StoreOutcome where
  | inserted
  | uniqueViolation
  | backendFailure
deriving DecidableEq

/-- Endpoint add_category (main.py lines 243-251). The bare except swallows
every exception raised by the INSERT, not only the uniqueness violation, so the
success message is returned for all three storage outcomes. -/
def add_category (db : DB) (group_id ty name : String) (oc : StoreOutcome) :
    DB × ApiOut String :=
  match oc with
  | .inserted =>
    ({ db with categories := db.categories ++ [⟨db.categories.length + 1, group_id, ty, name⟩] },
     .ok "成功")
  | .uniqueViolation => (db, .ok "成功")
  | .backendFailure => (db, .ok "成功")

/-- Number of membership rows stored for a user and group pair. -/
def countMembership (db : DB) (uid : Nat) (g : String) : Nat :=
  db.memberships.countP (fun m => m.user_id == uid && m.group_id == g)

/-- The end-to-end example store: alice, her group AB12CD, one income and one
expense record carrying the type literals the code aggregates, 收入 and 支出. -/
def aliceDb : DB :=
  { users := [⟨1, "alice", "pw"⟩],
    groups := [⟨"AB12CD", 1⟩],
    memberships := [⟨1, "AB12CD"⟩],
    categories := [],
    records :=
      [⟨1, 1, 100, "收入", "默认", "", "2026-03-01", "AB12CD"⟩,
       ⟨2, 1, 40, "支出", "默认", "", "2026-03-02", "AB12CD"⟩] }

/-- The same store with the records typed by the English literals of the spec. -/
def engTypeDb : DB :=
  { aliceDb with records :=
      [⟨1, 1, 100, "income", "默认", "", "2026-03-01", "AB12CD"⟩,
       ⟨2, 1, 40, "expense", "默认", "", "2026-03-02", "AB12CD"⟩] }

/-- A store holding only the user alice, used for concrete evaluations. -/
def aliceOnlyDb : DB := ⟨[⟨1, "alice", "pw"⟩], [], [], [], []⟩

/-- A store whose two records carry the same timestamp and distinct ids. -/
def tieDb : DB :=
  { users := [⟨1, "alice", "pw"⟩],
    groups := [⟨"G1", 1⟩],
    memberships := [⟨1, "G1"⟩],
    categories := [],
    records :=
      [⟨1, 1, 5, "收入", "默认", "", "2026-01-01 00:00:00", "G1"⟩,
       ⟨2, 1, 7, "支出", "默认", "", "2026-01-01 00:00:00", "G1"⟩] }

/-- A store with a single record dated inside February 2026. -/
def febDb : DB :=
  { users := [⟨1, "alice", "pw"⟩],
    groups := [⟨"G1", 1⟩],
    memberships := [⟨1, "G1"⟩],
    categories := [],
    records := [⟨1, 1, 5, "收入", "默认", "", "2026-02-14 10:00:00", "G1"⟩] }

/-- A store where alice is a member of the empty group G1 and bob is not. -/
def twoUserDb : DB :=
  { users := [⟨1, "alice", "pw"⟩, ⟨2, "bob", "pw"⟩],
    groups := [⟨"G1", 1⟩],
    memberships := [⟨1, "G1"⟩],
    categories := [],
    records := [] }

/-! Auxiliary facts about the decimal rendering and the date pattern. -/

theorem digitChar_ne_dash (d : Nat) (h : d < 10) : digitChar d ≠ '-' := by
  interval_cases d <;> decide

theorem natCharsAux_no_dash : ∀ (fuel n : Nat), ∀ c ∈ natCharsAux fuel n, c ≠ '-' := by
  intro fuel
  induction fuel with
  | zero => intro n c hc; simp [natCharsAux] at hc
  | succ fuel ih =>
    intro n c hc
    simp only [natCharsAux] at hc
    by_cases h : n < 10
    · rw [if_pos h] at hc
      simp only [List.mem_singleton] at hc
      subst hc
      exact digitChar_ne_dash n h
    · rw [if_neg h] at hc
      rcases List.mem_append.mp hc with hc | hc
      · exact ih _ c hc
      · simp only [List.mem_singleton] at hc
        subst hc
        exact digitChar_ne_dash _ (Nat.mod_lt _ (by omega))

theorem natChars_no_dash (n : Nat) : ∀ c ∈ natChars n, c ≠ '-' :=
  natCharsAux_no_dash (n + 1) n

theorem natChars_ne_nil (n : Nat) : natChars n ≠ [] := by
  unfold natChars natCharsAux
  by_cases h : n < 10
  · rw [if_pos h]; simp
  · rw [if_neg h]; simp

theorem pad2_no_dash (n : Nat) : ∀ c ∈ pad2 n, c ≠ '-' := by
  unfold pad2
  by_cases h : n < 10
  · rw [if_pos h]
    intro c hc
    rcases List.mem_cons.mp hc with rfl | hc
    · decide
    · exact natChars_no_dash n c hc
  · rw [if_neg h]
    exact natChars_no_dash n

theorem pad2_ne_nil (n : Nat) : pad2 n ≠ [] := by
  unfold pad2
  by_cases h : n < 10
  · rw [if_pos h]; simp
  · rw [if_neg h]; exact natChars_ne_nil n

theorem head?_no_dash {l : List Char} (h : ∀ c ∈ l, c ≠ '-') :
    ∀ c, l.head? = some c → c ≠ '-' := by
  intro c hc
  apply h
  cases l with
  | nil => simp at hc
  | cons a t =>
    simp only [List.head?_cons, Option.some.injEq] at hc
    subst hc
    exact List.mem_cons_self a t

theorem getLast?_no_dash {l : List Char} (h : ∀ c ∈ l, c ≠ '-') :
    ∀ c, l.getLast? = some c → c ≠ '-' := by
  intro c hc
  rw [← List.head?_reverse] at hc
  exact head?_no_dash (fun x hm => h x (List.mem_reverse.mp hm)) c hc

theorem dropWhile_dash_eq_self {l : List Char} (h : ∀ c, l.head? = some c → c ≠ '-') :
    l.dropWhile (· == '-') = l := by
  cases l with
  | nil => rfl
  | cons a t =>
    rw [List.dropWhile_cons, if_neg (by simpa using h a rfl)]

theorem dropWhile_dash_all {t : List Char} (h : ∀ c ∈ t, c = '-') :
    t.dropWhile (· == '-') = [] := by
  induction t with
  | nil => rfl
  | cons a s ih =>
    rw [List.dropWhile_cons, if_pos (by simpa using h a (List.mem_cons_self a s))]
    exact ih fun c hc => h c (List.mem_cons_of_mem a hc)

theorem stripDash_eq_self {l : List Char}
    (h1 : ∀ c, l.head? = some c → c ≠ '-')
    (h2 : ∀ c, l.getLast? = some c → c ≠ '-') :
    stripDash l = l := by
  unfold stripDash
  rw [dropWhile_dash_eq_self h1]
  rw [dropWhile_dash_eq_self (fun c hc => h2 c (by rwa [List.head?_reverse] at hc))]
  exact List.reverse_reverse l

theorem stripDash_append_trailing {l t : List Char}
    (h1 : ∀ c, l.head? = some c → c ≠ '-')
    (h2 : ∀ c, l.getLast? = some c → c ≠ '-')
    (ht : ∀ c ∈ t, c = '-') :
    stripDash (l ++ t) = l := by
  cases l with
  | nil =>
    unfold stripDash
    rw [List.nil_append, dropWhile_dash_all ht]
    rfl
  | cons a l' =>
    unfold stripDash
    rw [List.cons_append, List.dropWhile_cons, if_neg (by simpa using h1 a rfl)]
    rw [← List.cons_append, List.reverse_append, List.dropWhile_append,
        dropWhile_dash_all (fun c hc => ht c (List.mem_reverse.mp hc))]
    have hrev : ((a :: l').reverse).dropWhile (· == '-') = (a :: l').reverse :=
      dropWhile_dash_eq_self (fun c hc => h2 c (by rwa [List.head?_reverse] at hc))
    rw [if_pos List.isEmpty_nil, hrev, List.reverse_reverse]

theorem head?_append_left {t : List Char} (l : List Char) (hl : l ≠ []) :
    (l ++ t).head? = l.head? := by
  cases l with
  | nil => exact absurd rfl hl
  | cons a l' => rfl

theorem getLast?_append_right (l : List Char) {t : List Char} (ht : t ≠ []) :
    (l ++ t).getLast? = t.getLast? := by
  rw [← List.head?_reverse, ← List.head?_reverse, List.reverse_append]
  exact head?_append_left t.reverse (by simpa using ht)

theorem getLast?_cons_of_ne_nil (a : Char) {t : List Char} (ht : t ≠ []) :
    (a :: t).getLast? = t.getLast? :=
  getLast?_append_right [a] ht

theorem datePart_ymd {y m d : Nat} (hy : y ≠ 0) (hm : m ≠ 0) (hd : d ≠ 0) :
    datePart (some y) (some m) (some d)
      = natChars y ++ ('-' :: (pad2 m ++ ('-' :: pad2 d))) := by
  simp only [datePart, optYearChars, optPadChars]
  rw [if_neg hy, if_neg hm, if_neg hd]
  apply stripDash_eq_self
  · intro c hc
    rw [head?_append_left _ (natChars_ne_nil y)] at hc
    exact head?_no_dash (natChars_no_dash y) c hc
  · intro c hc
    rw [getLast?_append_right _ (List.cons_ne_nil _ _),
        getLast?_cons_of_ne_nil _ (by simp),
        getLast?_append_right _ (List.cons_ne_nil _ _),
        getLast?_cons_of_ne_nil _ (pad2_ne_nil d)] at hc
    exact getLast?_no_dash (pad2_no_dash d) c hc

theorem datePart_ym {y m : Nat} (hy : y ≠ 0) (hm : m ≠ 0) :
    datePart (some y) (some m) none = natChars y ++ ('-' :: pad2 m) := by
  simp only [datePart, optYearChars, optPadChars]
  rw [if_neg hy, if_neg hm]
  have hshape : natChars y ++ ('-' :: (pad2 m ++ ('-' :: ([] : List Char))))
      = (natChars y ++ ('-' :: pad2 m)) ++ ['-'] := by
    simp
  rw [hshape]
  apply stripDash_append_trailing
  · intro c hc
    rw [head?_append_left _ (natChars_ne_nil y)] at hc
    exact head?_no_dash (natChars_no_dash y) c hc
  · intro c hc
    rw [getLast?_append_right _ (List.cons_ne_nil _ _),
        getLast?_cons_of_ne_nil _ (pad2_ne_nil m)] at hc
    exact getLast?_no_dash (pad2_no_dash m) c hc
  · intro c hc
    simpa using List.mem_singleton.mp hc

theorem datePart_y {y : Nat} (hy : y ≠ 0) :
    datePart (some y) none none = natChars y := by
  simp only [datePart, optYearChars, optPadChars]
  rw [if_neg hy]
  have hshape : natChars y ++ ('-' :: (([] : List Char) ++ ('-' :: ([] : List Char))))
      = natChars y ++ ['-', '-'] := by
    simp
  rw [hshape]
  apply stripDash_append_trailing
  · intro c hc
    exact head?_no_dash (natChars_no_dash y) c hc
  · intro c hc
    exact getLast?_no_dash (natChars_no_dash y) c hc
  · intro c hc
    rcases List.mem_cons.mp hc with rfl | hc
    · rfl
    · simpa using List.mem_singleton.mp hc

theorem listStarts_append_left {p q t : List Char} (h : listStarts (p ++ q) t = true) :
    listStarts p t = true := by
  induction p generalizing t with
  | nil => rfl
  | cons a as ih =>
    cases t with
    | nil => simp [listStarts] at h
    | cons b bs =>
      rw [List.cons_append] at h
      unfold listStarts at h ⊢
      simp only [Bool.and_eq_true] at h ⊢
      exact ⟨h.1, ih h.2⟩

/-! The result ordering is a total transitive relation, and sorting with it
yields strictly ordered output once record ids are distinct. -/

theorem char_eq_of_toNat_eq {a b : Char} (h : a.toNat = b.toNat) : a = b := by
  have hcongr := congrArg Char.ofNat h
  rwa [Char.ofNat_toNat, Char.ofNat_toNat] at hcongr

theorem lexLt_trans : ∀ x y z : List Char,
    lexLt x y = true → lexLt y z = true → lexLt x z = true := by
  intro x
  induction x with
  | nil =>
    intro y z h1 h2
    cases y with
    | nil => simp [lexLt] at h1
    | cons b bs =>
      cases z with
      | nil => simp [lexLt] at h2
      | cons c cs => rfl
  | cons a as ih =>
    intro y z h1 h2
    cases y with
    | nil => simp [lexLt] at h1
    | cons b bs =>
      cases z with
      | nil => simp [lexLt] at h2
      | cons c cs =>
        simp only [lexLt] at h1 h2 ⊢
        by_cases hab : a.toNat < b.toNat
        · by_cases hbc : b.toNat < c.toNat
          · rw [if_pos (show a.toNat < c.toNat by omega)]
          · rw [if_neg hbc] at h2
            by_cases hcb : c.toNat < b.toNat
            · rw [if_pos hcb] at h2
              exact absurd h2 (by simp)
            · rw [if_pos (show a.toNat < c.toNat by omega)]
        · rw [if_neg hab] at h1
          by_cases hba : b.toNat < a.toNat
          · rw [if_pos hba] at h1
            exact absurd h1 (by simp)
          · rw [if_neg hba] at h1
            by_cases hbc : b.toNat < c.toNat
            · rw [if_pos (show a.toNat < c.toNat by omega)]
            · rw [if_neg hbc] at h2
              by_cases hcb : c.toNat < b.toNat
              · rw [if_pos hcb] at h2
                exact absurd h2 (by simp)
              · rw [if_neg hcb] at h2
                rw [if_neg (show ¬ a.toNat < c.toNat by omega),
                    if_neg (show ¬ c.toNat < a.toNat by omega)]
                exact ih bs cs h1 h2

theorem lexLt_total_eq : ∀ x y : List Char,
    lexLt x y = true ∨ lexLt y x = true ∨ x = y := by
  intro x
  induction x with
  | nil =>
    intro y
    cases y with
    | nil => exact Or.inr (Or.inr rfl)
    | cons b bs => exact Or.inl rfl
  | cons a as ih =>
    intro y
    cases y with
    | nil => exact Or.inr (Or.inl rfl)
    | cons b bs =>
      by_cases hab : a.toNat < b.toNat
      · exact Or.inl (by simp only [lexLt]; rw [if_pos hab])
      · by_cases hba : b.toNat < a.toNat
        · exact Or.inr (Or.inl (by simp only [lexLt]; rw [if_pos hba]))
        · have hchar : a = b := char_eq_of_toNat_eq (by omega)
          rcases ih bs with h | h | h
          · exact Or.inl (by simp only [lexLt]; rw [if_neg hab, if_neg hba]; exact h)
          · refine Or.inr (Or.inl ?_)
            simp only [lexLt]
            rw [if_neg hba, if_neg hab]
            exact h
          · exact Or.inr (Or.inr (by rw [hchar, h]))

theorem str_eq_of_data_eq {s t : String} (h : s.data = t.data) : s = t :=
  congrArg String.mk h

theorem recOrd_total : ∀ a b : Record, recOrd a b ∨ recOrd b a := by
  intro a b
  unfold recOrd
  rcases lexLt_total_eq b.time.data a.time.data with h | h | h
  · exact Or.inl (Or.inl h)
  · exact Or.inr (Or.inl h)
  · have hteq : a.time = b.time := (str_eq_of_data_eq h).symm
    rcases Nat.le_total a.id b.id with hid | hid
    · exact Or.inr (Or.inr ⟨hteq.symm, hid⟩)
    · exact Or.inl (Or.inr ⟨hteq, hid⟩)

theorem recOrd_trans : ∀ a b c : Record, recOrd a b → recOrd b c → recOrd a c := by
  intro a b c hab hbc
  unfold recOrd at hab hbc ⊢
  rcases hab with h1 | ⟨h1, h1'⟩
  · rcases hbc with h2 | ⟨h2, h2'⟩
    · exact Or.inl (lexLt_trans _ _ _ h2 h1)
    · exact Or.inl (h2 ▸ h1)
  · rcases hbc with h2 | ⟨h2, h2'⟩
    · exact Or.inl (h1.symm ▸ h2)
    · exact Or.inr ⟨h1.trans h2, Nat.le_trans h2' h1'⟩

theorem pairwise_insertionSort_strict (l : List Record)
    (h : (l.map Record.id).Nodup) :
    (List.insertionSort recOrd l).Pairwise recStrict := by
  haveI : IsTotal Record recOrd := ⟨recOrd_total⟩
  haveI : IsTrans Record recOrd := ⟨recOrd_trans⟩
  have hs : (List.insertionSort recOrd l).Pairwise recOrd :=
    List.sorted_insertionSort recOrd l
  have hperm : List.Perm (List.insertionSort recOrd l) l := List.perm_insertionSort recOrd l
  have hnd : ((List.insertionSort recOrd l).map Record.id).Nodup :=
    ((hperm.map Record.id).symm).nodup h
  have hne : (List.insertionSort recOrd l).Pairwise (fun a b => a.id ≠ b.id) :=
    List.pairwise_map.mp hnd
  refine (hs.and hne).imp ?_
  rintro a b ⟨hord, hids⟩
  rcases hord with hlt | ⟨hteq, hle⟩
  · exact Or.inl hlt
  · exact Or.inr ⟨hteq, Nat.lt_of_le_of_ne hle (fun e => hids e.symm)⟩

/-! The summary of every search response is the aggregation of its own data
list: the denied and empty branches return the zero summary over no rows. -/

theorem search_summary_eq_summarize (db : DB) (u : String) (gid : Option String)
    (y m d : Option Nat) (ft : String) :
    (search_records db u gid y m d ft).summary
      = summarize (search_records db u gid y m d ft).data := by
  have hempty : emptyResult.summary = summarize emptyResult.data := by
    simp [emptyResult, summarize]
  unfold search_records
  split_ifs with h1 h2
  · exact hempty
  · exact hempty
  · rfl

/-- Claim C4, corrected: the concrete instance below refutes monotonicity in
omission as originally stated. Omitting the month from the fully specified
query (year 2026, month 2, day 14) yields the pattern 2026--14, which no
longer matches the record timed 2026-02-14 10:00:00, so the matched set
shrinks, and likewise at the level of search_records against the store. -/
theorem date_filter_c4_counterexample :
    recTimeMatch (some 2026) (some 2) (some 14) "2026-02-14 10:00:00" = true
    ∧ recTimeMatch (some 2026) none (some 14) "2026-02-14 10:00:00" = false
    ∧ (search_records febDb "alice" (some "G1") (some 2026) (some 2) (some 14) "全部").data.length
        = 1
    ∧ (search_records febDb "alice" (some "G1") (some 2026) none (some 14) "全部").data = [] := by
  refine ⟨by decide, by decide, by decide, by decide⟩

/-- Claim C4, amended: the date filter of search_records is a prefix match over
the time field that widens as trailing components are omitted: for positive
components, a record matched by (year, month, day) is matched by (year, month),
then by (year) alone, then by the empty query; and the record timed
2026-02-14 10:00:00 is matched by the queries for 2026, 2026-02 and
2026-02-14 and by the empty query, but not by 2025 or by month 3 alone. -/
theorem date_filter_c4 (y m d : Nat) (hy : 0 < y) (hm : 0 < m) (hd : 0 < d) (t : String) :
    (recTimeMatch (some y) (some m) (some d) t = true →
      recTimeMatch (some y) (some m) none t = true)
    ∧ (recTimeMatch (some y) (some m) none t = true →
      recTimeMatch (some y) none none t = true)
    ∧ (recTimeMatch (some y) none none t = true →
      recTimeMatch none none none t = true)
    ∧ recTimeMatch (some 2026) none none "2026-02-14 10:00:00" = true
    ∧ recTimeMatch (some 2026) (some 2) none "2026-02-14 10:00:00" = true
    ∧ recTimeMatch (some 2026) (some 2) (some 14) "2026-02-14 10:00:00" = true
    ∧ recTimeMatch none none none "2026-02-14 10:00:00" = true
    ∧ recTimeMatch (some 2025) none none "2026-02-14 10:00:00" = false
    ∧ recTimeMatch none (some 3) none "2026-02-14 10:00:00" = false := by
  refine ⟨?_, ?_, ?_, by decide, by decide, by decide, by decide, by decide, by decide⟩
  · intro h
    unfold recTimeMatch at h ⊢
    rw [datePart_ymd (by omega) (by omega) (by omega)] at h
    rw [datePart_ym (by omega) (by omega)]
    have hsplit : natChars y ++ ('-' :: (pad2 m ++ ('-' :: pad2 d)))
        = (natChars y ++ ('-' :: pad2 m)) ++ ('-' :: pad2 d) := by
      simp
    rw [hsplit] at h
    exact listStarts_append_left h
  · intro h
    unfold recTimeMatch at h ⊢
    rw [datePart_ym (by omega) (by omega)] at h
    rw [datePart_y (by omega)]
    exact listStarts_append_left h
  · intro h
    rfl

theorem date_filter_c4_witness :
    ((0 : Nat) < 2026 ∧ (0 : Nat) < 2 ∧ (0 : Nat) < 14)
    ∧ ((recTimeMatch (some 2026) (some 2) (some 14) "2026-02-14 10:00:00" = true →
        recTimeMatch (some 2026) (some 2) none "2026-02-14 10:00:00" = true)
      ∧ (recTimeMatch (some 2026) (some 2) none "2026-02-14 10:00:00" = true →
        recTimeMatch (some 2026) none none "2026-02-14 10:00:00" = true)
      ∧ (recTimeMatch (some 2026) none none "2026-02-14 10:00:00" = true →
        recTimeMatch none none none "2026-02-14 10:00:00" = true)
      ∧ recTimeMatch (some 2026) none none "2026-02-14 10:00:00" = true
      ∧ recTimeMatch (some 2026) (some 2) none "2026-02-14 10:00:00" = true
      ∧ recTimeMatch (some 2026) (some 2) (some 14) "2026-02-14 10:00:00" = true
      ∧ recTimeMatch none none none "2026-02-14 10:00:00" = true
      ∧ recTimeMatch (some 2025) none none "2026-02-14 10:00:00" = false
      ∧ recTimeMatch none (some 3) none "2026-02-14 10:00:00" = false) :=
  ⟨⟨by decide, by decide, by decide⟩,
   date_filter_c4 2026 2 14 (by decide) (by decide) (by decide) "2026-02-14 10:00:00"⟩

/-- Claim C5, confirmed: whenever stored record ids are distinct, as the
serial primary key guarantees, any record listed before another by
search_records has a lexicographically larger time, or an equal time and a
larger id. -/
theorem search_order_c5 (db : DB) (u : String) (gid : Option String) (y m d : Option Nat)
    (ft : String) (h : (db.records.map Record.id).Nodup) :
    (search_records db u gid y m d ft).data.Pairwise recStrict := by
  unfold search_records
  split_ifs with h1 h2
  · exact List.Pairwise.nil
  · exact List.Pairwise.nil
  · exact pairwise_insertionSort_strict _
      (List.Nodup.sublist ((List.filter_sublist _).map Record.id) h)

theorem search_order_c5_witness :
    (tieDb.records.map Record.id).Nodup
    ∧ (search_records tieDb "alice" (some "G1") none none none "全部").data.Pairwise recStrict :=
  ⟨by decide, search_order_c5 tieDb "alice" (some "G1") none none none "全部" (by decide)⟩

/-- Claim C1, corrected: retrieval keeps every record of the group regardless
of its type string, but the aggregation matches the literals 收入 and 支出,
not the English words of the claim. With records typed income and expense the
filtered set is non-empty and holds an income-typed record of amount 100, yet
the reported income is 0, and the end-to-end summary is all zeros instead of
income 100, expense 40, balance 60. -/
theorem summary_sums_c1_counterexample :
    (search_records engTypeDb "alice" (some "AB12CD") (some 2026) (some 3) none "全部").data ≠ []
    ∧ (search_records engTypeDb "alice" (some "AB12CD") (some 2026) (some 3) none "全部").summary.income
        = 0
    ∧ (((search_records engTypeDb "alice" (some "AB12CD") (some 2026) (some 3) none "全部").data.filter
        (fun r => r.type == "income")).map Record.amount).sum = 100
    ∧ get_summary engTypeDb "alice" "AB12CD" 2026 3 = ⟨0, 0, 0⟩ := by
  have hd : (search_records engTypeDb "alice" (some "AB12CD") (some 2026) (some 3) none "全部").data
      = [⟨2, 1, 40, "expense", "默认", "", "2026-03-02", "AB12CD"⟩,
         ⟨1, 1, 100, "income", "默认", "", "2026-03-01", "AB12CD"⟩] := by decide
  refine ⟨by decide, ?_, ?_, ?_⟩
  · rw [search_summary_eq_summarize, hd]
    simp [summarize]
  · rw [hd]
    simp
  · unfold get_summary
    rw [search_summary_eq_summarize, hd]
    simp [summarize]

/-- Claim C1, amended: for every call to search_records returning a non-empty
record set, the summary's income is the sum of amount over retrieved records
whose type equals 收入 (rendered income in the spec) and the expense the sum
over those typed 支出 (expense); after adding a 收入 record of amount 100 and
a 支出 record of amount 40 to alice's group, get_summary for 2026-03 returns
income 100, expense 40, balance 60. -/
theorem summary_sums_c1 (db : DB) (u g : String) (y m d : Option Nat) (ft : String)
    (_hne : (search_records db u (some g) y m d ft).data ≠ []) :
    (search_records db u (some g) y m d ft).summary.income
      = (((search_records db u (some g) y m d ft).data.filter
          (fun r => r.type == "收入")).map Record.amount).sum
    ∧ (search_records db u (some g) y m d ft).summary.expense
      = (((search_records db u (some g) y m d ft).data.filter
          (fun r => r.type == "支出")).map Record.amount).sum
    ∧ get_summary aliceDb "alice" "AB12CD" 2026 3 = ⟨100, 40, 60⟩ := by
  have hd : (search_records aliceDb "alice" (some "AB12CD") (some 2026) (some 3) none "全部").data
      = [⟨2, 1, 40, "支出", "默认", "", "2026-03-02", "AB12CD"⟩,
         ⟨1, 1, 100, "收入", "默认", "", "2026-03-01", "AB12CD"⟩] := by decide
  refine ⟨?_, ?_, ?_⟩
  · rw [search_summary_eq_summarize]
    rfl
  · rw [search_summary_eq_summarize]
    rfl
  · unfold get_summary
    rw [search_summary_eq_summarize, hd]
    simp [summarize]
    norm_num

theorem summary_sums_c1_witness :
    (search_records aliceDb "alice" (some "AB12CD") (some 2026) (some 3) none "全部").data ≠ []
    ∧ ((search_records aliceDb "alice" (some "AB12CD") (some 2026) (some 3) none "全部").summary.income
        = (((search_records aliceDb "alice" (some "AB12CD") (some 2026) (some 3) none "全部").data.filter
            (fun r => r.type == "收入")).map Record.amount).sum
      ∧ (search_records aliceDb "alice" (some "AB12CD") (some 2026) (some 3) none "全部").summary.expense
        = (((search_records aliceDb "alice" (some "AB12CD") (some 2026) (some 3) none "全部").data.filter
            (fun r => r.type == "支出")).map Record.amount).sum
      ∧ get_summary aliceDb "alice" "AB12CD" 2026 3 = ⟨100, 40, 60⟩) :=
  ⟨by decide,
   summary_sums_c1 aliceDb "alice" "AB12CD" (some 2026) (some 3) none "全部" (by decide)⟩

/-- Claim C2, confirmed: when the group parameter is absent or the caller has
no access to the named group, search_records answers the empty data list and
the zero summary, with no error and no record of the group. -/
theorem silent_deny_c2 (db : DB) (u : String) (gid : Option String)
    (y m d : Option Nat) (ft : String)
    (h : gid = none ∨ ∃ g, gid = some g ∧ has_access db u g = false) :
    search_records db u gid y m d ft = ⟨[], ⟨0, 0, 0⟩⟩ := by
  rcases h with rfl | ⟨g, rfl, hg⟩
  · rfl
  · unfold search_records
    simp only [Option.getD_some]
    rw [if_pos (Or.inr hg)]
    rfl

theorem silent_deny_c2_witness :
    ((some "AB12CD" : Option String) = none
      ∨ ∃ g, (some "AB12CD" : Option String) = some g ∧ has_access aliceDb "bob" g = false)
    ∧ search_records aliceDb "bob" (some "AB12CD") (some 2026) none none "全部" = ⟨[], ⟨0, 0, 0⟩⟩ :=
  ⟨Or.inr ⟨"AB12CD", rfl, by decide⟩,
   silent_deny_c2 aliceDb "bob" (some "AB12CD") (some 2026) none none "全部"
     (Or.inr ⟨"AB12CD", rfl, by decide⟩)⟩

/-- Claim C8, confirmed: every summary returned by search_records or
get_summary, the silent-deny and empty cases included, reports a balance equal
to its own income minus its own expense. -/
theorem balance_c8 (db : DB) (u : String) (gid : Option String) (y m d : Option Nat)
    (ft : String) (g2 : String) (yr mo : Nat) :
    (search_records db u gid y m d ft).summary.balance
      = (search_records db u gid y m d ft).summary.income
        - (search_records db u gid y m d ft).summary.expense
    ∧ (get_summary db u g2 yr mo).balance
      = (get_summary db u g2 yr mo).income - (get_summary db u g2 yr mo).expense := by
  constructor
  · rw [search_summary_eq_summarize]
    rfl
  · unfold get_summary
    rw [search_summary_eq_summarize]
    rfl

/-- Claim C10, confirmed: a member querying a group in which no stored record
matches the filters receives exactly the value a denied non-member receives,
the empty data list with the zero summary, so the response does not reveal
whether access was granted. -/
theorem noninterference_c10 (db : DB) (u v g : String) (y m d : Option Nat) (ft : String)
    (hg : g ≠ "") (hu : has_access db u g = true)
    (hempty : queryRecords db g y m d ft = [])
    (hv : has_access db v g = false) :
    search_records db u (some g) y m d ft = search_records db v (some g) y m d ft
    ∧ search_records db u (some g) y m d ft = ⟨[], ⟨0, 0, 0⟩⟩ := by
  have h1 : search_records db u (some g) y m d ft = emptyResult := by
    unfold search_records
    simp only [Option.getD_some]
    rw [if_neg (by simp [hg, hu]), if_pos hempty]
  have h2 : search_records db v (some g) y m d ft = emptyResult := by
    unfold search_records
    simp only [Option.getD_some]
    rw [if_pos (Or.inr hv)]
  exact ⟨h1.trans h2.symm, h1⟩

theorem noninterference_c10_witness :
    ("G1" ≠ "" ∧ has_access twoUserDb "alice" "G1" = true
      ∧ queryRecords twoUserDb "G1" none none none "全部" = []
      ∧ has_access twoUserDb "bob" "G1" = false)
    ∧ (search_records twoUserDb "alice" (some "G1") none none none "全部"
        = search_records twoUserDb "bob" (some "G1") none none none "全部"
      ∧ search_records twoUserDb "alice" (some "G1") none none none "全部" = ⟨[], ⟨0, 0, 0⟩⟩) :=
  ⟨⟨by decide, by decide, by decide, by decide⟩,
   noninterference_c10 twoUserDb "alice" "bob" "G1" none none none "全部"
     (by decide) (by decide) (by decide) (by decide)⟩

/-- Claim C7, confirmed: delete_record always answers the success message, its
result keeps exactly the records whose id differs from the given one, it
leaves the store untouched when no record has that id, and it never touches
the other four relations. -/
theorem delete_unconditional_c7 (db : DB) (record_id : Nat) :
    (delete_record db record_id).2 = .ok "成功"
    ∧ (∀ r : Record,
        r ∈ (delete_record db record_id).1.records ↔ (r ∈ db.records ∧ r.id ≠ record_id))
    ∧ ((∀ r ∈ db.records, r.id ≠ record_id) → (delete_record db record_id).1 = db)
    ∧ (delete_record db record_id).1.users = db.users
    ∧ (delete_record db record_id).1.groups = db.groups
    ∧ (delete_record db record_id).1.memberships = db.memberships
    ∧ (delete_record db record_id).1.categories = db.categories := by
  refine ⟨rfl, ?_, ?_, rfl, rfl, rfl, rfl⟩
  · intro r
    unfold delete_record
    simp [List.mem_filter]
  · intro hall
    unfold delete_record
    have hkeep : db.records.filter (fun r => r.id != record_id) = db.records :=
      List.filter_eq_self.mpr (fun a ha => by simpa using hall a ha)
    rw [hkeep]

theorem delete_unconditional_c7_witness :
    (delete_record aliceOnlyDb 99).2 = .ok "成功" ∧ (delete_record aliceOnlyDb 99).1 = aliceOnlyDb :=
  ⟨(delete_unconditional_c7 aliceOnlyDb 99).1,
   (delete_unconditional_c7 aliceOnlyDb 99).2.2.1 (by decide)⟩

/-- Claim C3, code bug: for a username absent from the store, create_group
raises HTTPException 404 inside its try block, but the blanket except clause
re-raises it as a 500 internal error, so the caller observes 500, not the
NotFound kind the code itself intends; no group or membership row is written.
When the user exists, the group row and the creator membership are written
together and the code is returned. -/
theorem create_group_c3 :
    create_group aliceOnlyDb "ghost" "ZZZZZZ" = (aliceOnlyDb, .err 500 "服务器内部错误")
    ∧ (create_group aliceOnlyDb "ghost" "ZZZZZZ").1.groups = []
    ∧ (create_group aliceOnlyDb "ghost" "ZZZZZZ").1.memberships = []
    ∧ (create_group aliceOnlyDb "alice" "ZZZZZZ").1.groups = [⟨"ZZZZZZ", 1⟩]
    ∧ (create_group aliceOnlyDb "alice" "ZZZZZZ").1.memberships = [⟨1, "ZZZZZZ"⟩]
    ∧ (create_group aliceOnlyDb "alice" "ZZZZZZ").2 = .ok "ZZZZZZ" := by
  refine ⟨by decide, by decide, by decide, by decide, by decide, by decide⟩

/-- Claim C9, code bug: the bare except around the category INSERT swallows
every storage failure, not only the uniqueness violation, so a backend failure
is also reported as success instead of propagating as Unavailable. -/
theorem add_category_c9 :
    add_category aliceOnlyDb "G1" "支出" "餐饮" StoreOutcome.backendFailure
      = (aliceOnlyDb, .ok "成功")
    ∧ add_category aliceOnlyDb "G1" "支出" "餐饮" StoreOutcome.uniqueViolation
      = (aliceOnlyDb, .ok "成功") :=
  ⟨rfl, rfl⟩

/-- Claim C6, confirmed: join_group fails with 404 when the username resolves
to no user row or the invite code names no group; for a resolvable user and an
existing group whose membership relation satisfies the uniqueness constraint,
joining twice succeeds both times and leaves exactly one membership row for
the pair. -/
theorem join_idempotent_c6 (db : DB) (username invite_code : String) :
    (db.users.find? (fun w => w.username == username) = none →
      join_group db username invite_code = (db, .err 404 "用户不存在"))
    ∧ (∀ usr : User, db.users.find? (fun w => w.username == username) = some usr →
        db.groups.any (fun w => w.group_id == invite_code) = false →
        join_group db username invite_code = (db, .err 404 "邀请码无效"))
    ∧ (∀ usr : User, db.users.find? (fun w => w.username == username) = some usr →
        db.groups.any (fun w => w.group_id == invite_code) = true →
        countMembership db usr.id invite_code ≤ 1 →
        (join_group db username invite_code).2 = .ok "成功"
        ∧ (join_group (join_group db username invite_code).1 username invite_code).2 = .ok "成功"
        ∧ countMembership (join_group (join_group db username invite_code).1 username invite_code).1
            usr.id invite_code = 1) := by
  refine ⟨?_, ?_, ?_⟩
  · intro hf
    unfold join_group
    rw [hf]
    rfl
  · intro usr hf hgrp
    unfold join_group
    rw [hf]
    simp only [join_group_resolved]
    rw [if_pos hgrp]
  · intro usr hf hgrp hcnt
    have hg1 : ¬ (db.groups.any (fun w => w.group_id == invite_code) = false) := by
      simp [hgrp]
    by_cases hmem :
        db.memberships.any (fun m => m.user_id == usr.id && m.group_id == invite_code) = true
    · have h1 : join_group db username invite_code = (db, .ok "成功") := by
        unfold join_group
        rw [hf]
        simp only [join_group_resolved]
        rw [if_neg hg1, if_pos hmem]
      have hc1 : 0 < countMembership db usr.id invite_code := by
        unfold countMembership
        rw [List.countP_pos_iff]
        rcases List.any_eq_true.mp hmem with ⟨x, hx, hpx⟩
        exact ⟨x, hx, hpx⟩
      refine ⟨by rw [h1], ?_, ?_⟩
      · rw [h1]
        show (join_group db username invite_code).2 = ApiOut.ok "成功"
        rw [h1]
      · rw [h1]
        show countMembership (join_group db username invite_code).1 usr.id invite_code = 1
        rw [h1]
        show countMembership db usr.id invite_code = 1
        omega
    · have h1 : join_group db username invite_code
          = ({ db with memberships := db.memberships ++ [⟨usr.id, invite_code⟩] }, .ok "成功") := by
        unfold join_group
        rw [hf]
        simp only [join_group_resolved]
        rw [if_neg hg1, if_neg hmem]
      have hf1 : ({ db with memberships := db.memberships ++ [⟨usr.id, invite_code⟩] } : DB).users.find?
          (fun w => w.username == username) = some usr := hf
      have hg1' : ¬ (({ db with memberships := db.memberships ++ [⟨usr.id, invite_code⟩] } : DB).groups.any
          (fun w => w.group_id == invite_code) = false) := hg1
      have hmem1 : ({ db with memberships := db.memberships ++ [⟨usr.id, invite_code⟩] } : DB).memberships.any
          (fun m => m.user_id == usr.id && m.group_id == invite_code) = true := by
        simp
      have h2 : join_group ({ db with memberships := db.memberships ++ [⟨usr.id, invite_code⟩] } : DB)
          username invite_code
          = (({ db with memberships := db.memberships ++ [⟨usr.id, invite_code⟩] } : DB), .ok "成功") := by
        unfold join_group
        rw [hf1]
        simp only [join_group_resolved]
        rw [if_neg hg1', if_pos hmem1]
      have hc0 : countMembership db usr.id invite_code = 0 := by
        unfold countMembership
        rw [List.countP_eq_zero]
        intro a ha hpa
        exact hmem (List.any_eq_true.mpr ⟨a, ha, hpa⟩)
      refine ⟨by rw [h1], ?_, ?_⟩
      · rw [h1]
        show (join_group ({ db with memberships := db.memberships ++ [⟨usr.id, invite_code⟩] } : DB)
            username invite_code).2 = ApiOut.ok "成功"
        rw [h2]
      · rw [h1]
        show countMembership
            (join_group ({ db with memberships := db.memberships ++ [⟨usr.id, invite_code⟩] } : DB)
              username invite_code).1 usr.id invite_code = 1
        rw [h2]
        show List.countP (fun m : Membership => m.user_id == usr.id && m.group_id == invite_code)
            (db.memberships ++ [(⟨usr.id, invite_code⟩ : Membership)]) = 1
        rw [List.countP_append]
        unfold countMembership at hc0
        rw [hc0]
        simp [List.countP_cons]

theorem join_idempotent_c6_witness :
    (twoUserDb.users.find? (fun w => w.username == "bob") = some ⟨2, "bob", "pw"⟩
      ∧ twoUserDb.groups.any (fun w => w.group_id == "G1") = true
      ∧ countMembership twoUserDb (⟨2, "bob", "pw"⟩ : User).id "G1" ≤ 1)
    ∧ ((join_group twoUserDb "bob" "G1").2 = .ok "成功"
      ∧ (join_group (join_group twoUserDb "bob" "G1").1 "bob" "G1").2 = .ok "成功"
      ∧ countMembership (join_group (join_group twoUserDb "bob" "G1").1 "bob" "G1").1
          (⟨2, "bob", "pw"⟩ : User).id "G1" = 1) :=
  ⟨⟨by decide, by decide, by decide⟩,
   (join_idempotent_c6 twoUserDb "bob" "G1").2.2 ⟨2, "bob", "pw"⟩
     (by decide) (by decide) (by decide)⟩

end FamilyFinance
